import Mathlib

/-!
Verification of the Bee frame-transport and rendering pipeline.

Shallow embedding of the C++ sources:
- bee_bt_bridge.cpp / bee_udp_bridge.cpp : pack_3bit_16, the RFCOMM accept
  and relay loops, the UDP relay loop.
- common.hpp : unpack_3bit_16.
- bee_spectrum_display.cpp : draw_bars and the live relay loop.
- bee_display_driver.cpp : blit_grid_to_fb and the SSD1306 dirty-page draw.

Machine integers are modelled as Nat; byte buffers and pixel grids as
functions Nat → Nat; the imperative for-loops as iterated application
(loopN).  Stateful code is explicit state passing; the socket layer is
abstracted by boolean oracles describing the success of each OS call.
-/

set_option maxRecDepth 100000

namespace Bee

/-- Iterate a loop body over indices 0, 1, ..., n-1 (the C for-loop). -/
def loopN {α : Type} (f : Nat → α → α) : Nat → α → α
  | 0, a => a
  | n + 1, a => f n (loopN f n a)

/-! ## Band codec (bee_bt_bridge.cpp lines 18-29, common.hpp lines 309-320) -/

/-- One iteration of the pack_3bit_16 loop: sample i is masked to 3 bits and
or-ed into the output buffer at bit offset 3*i; when the field straddles a
byte boundary (bit offset within the byte greater than 5) the high bits go
into the next byte.  The &&& 255 terms model the uint8_t truncating casts. -/
def packBody (inp : Nat → Nat) (i : Nat) (out : Nat → Nat) : Nat → Nat :=
  let v := inp i &&& 7
  let b := (3 * i) >>> 3
  let o := (3 * i) &&& 7
  let out1 := Function.update out b (out b ||| ((v <<< o) &&& 255))
  if 5 < o then Function.update out1 (b + 1) (out1 (b + 1) ||| ((v >>> (8 - o)) &&& 255))
  else out1

/-- pack_3bit_16 (bee_bt_bridge.cpp lines 18-29): pack 16 samples, 3 bits
each, into a 6-byte frame.  The output buffer is zero initialised (memset)
and the loop runs i = 0..15. -/
def pack_3bit_16 (inp : Nat → Nat) : Nat → Nat :=
  loopN (packBody inp) 16 (fun _ => 0)

/-- unpack_3bit_16 (common.hpp lines 309-320): read the 3-bit field at bit
offset 3*i; when fewer than 3 bits remain in the current byte, take the low
bits of the next byte. -/
def unpack_3bit_16 (inp : Nat → Nat) (i : Nat) : Nat :=
  let byte_idx := (3 * i) >>> 3
  let off := (3 * i) &&& 7
  let v := inp byte_idx >>> off
  let used := 8 - off
  let v2 := if used < 3 then v ||| (inp (byte_idx + 1) <<< used) else v
  v2 &&& 7

/-! ## Rasterizer (bee_spectrum_display.cpp lines 13-22) -/

/-- draw_bars: clear the grid, then for each column x with x < COLS and
x < 16 fill h = min(ROWS, bands[x]) pixels from the bottom row upward,
writing 1 at linear index (ROWS-1-r)*COLS + x for r = 0..h-1. -/
def draw_bars (bands : Nat → Nat) (COLS ROWS : Nat) : Nat → Nat :=
  loopN
    (fun x g =>
      loopN (fun r g => Function.update g ((ROWS - 1 - r) * COLS + x) 1)
        (min ROWS (bands x)) g)
    (min COLS 16) (fun _ => 0)

/-! ## Display driver (bee_display_driver.cpp) -/

/-- fill_rect (bee_display_driver.cpp lines 100-112): clamp the rectangle to
the screen, then set bit (y &&& 7) of framebuffer byte (y>>>3)*scrW + x for
every pixel of the rectangle.  Coordinates are C ints, modelled as Int; the
inclusive loops run (hi - lo + 1).toNat times. -/
def fill_rect (scrW scrH : Int) (x0 y0 x1 y1 : Int) (fb : Nat → Nat) : Nat → Nat :=
  let x0 := if x0 < 0 then 0 else x0
  let y0 := if y0 < 0 then 0 else y0
  let x1 := if scrW - 1 < x1 then scrW - 1 else x1
  let y1 := if scrH - 1 < y1 then scrH - 1 else y1
  loopN
    (fun k fb =>
      let y := y0 + k
      let page := y / 8
      let bit := (y % 8).toNat
      let base := page * scrW
      loopN
        (fun j fb =>
          let x := x0 + j
          Function.update fb (base + x).toNat (fb (base + x).toNat ||| (1 <<< bit)))
        (x1 + 1 - x0).toNat fb)
    (y1 + 1 - y0).toNat fb

/-- blit_grid_to_fb (bee_display_driver.cpp lines 97-127): zero the
framebuffer, then for each grid cell (gy, gx) read sequentially at linear
index gy*COLS + gx; a nonzero cell fills the corresponding scaled rectangle.
The cell block size is scrW/COLS by scrH/ROWS (integer division). -/
def blit_grid_to_fb (grid : Nat → Nat) (COLS ROWS scrW scrH : Nat) : Nat → Nat :=
  loopN
    (fun gy fb =>
      loopN
        (fun gx fb =>
          if grid (gy * COLS + gx) ≠ 0 then
            let qx : Int := (scrW / COLS : Nat)
            let qy : Int := (scrH / ROWS : Nat)
            let x0 : Int := gx * qx
            let y0 : Int := gy * qy
            fill_rect scrW scrH x0 y0 (x0 + qx - 1) (y0 + qy - 1) fb
          else fb)
        COLS fb)
    ROWS (fun _ => 0)

/-- State of the SSD1306 driver (bee_display_driver.cpp lines 18-23):
width, height, the dirty cache prev and the first_draw flag.  The C vector
prev has size w*(h/8); its emptiness is recovered from w and h. -/
structure OledState where
  w : Nat
  h : Nat
  prev : Nat → Nat
  first_draw : Bool

/-- prev.empty(): begin() assigns prev w*(h/8) zero bytes, so the cache is
empty exactly when w*(h/8) = 0. -/
def prevEmpty (s : OledState) : Bool :=
  decide (s.w * (s.h / 8) = 0)

/-- memcmp(src, dst, w) != 0 for page p: some byte of the page differs
between the incoming buffer and the dirty cache. -/
def pageDiffers (s : OledState) (pages : Nat → Nat) (p : Nat) : Bool :=
  decide (∃ j, j < s.w ∧ pages (p * s.w + j) ≠ s.prev (p * s.w + j))

/-- One iteration of the SSD1306::draw page loop (bee_display_driver.cpp
lines 77-92): changed = first_draw, or (when the cache is present) a byte
difference; an unchanged page is skipped; a changed page is written to the
device (recorded by its index) and then copied into the cache. -/
def drawStep (fb : Nat → Nat) (p : Nat) (sw : OledState × List Nat) : OledState × List Nat :=
  let s := sw.1
  let ws := sw.2
  let changed := s.first_draw || (!prevEmpty s && pageDiffers s fb p)
  if changed then
    let prev' : Nat → Nat :=
      if prevEmpty s then s.prev
      else fun i => if p * s.w ≤ i ∧ i < p * s.w + s.w then fb i else s.prev i
    ({ s with prev := prev' }, ws ++ [p])
  else (s, ws)

/-- SSD1306::draw (bee_display_driver.cpp lines 75-94): process the h/8
pages in order, then clear first_draw.  Returns the new state and the list
of page indices written to the device. -/
def draw (s : OledState) (fb : Nat → Nat) : OledState × List Nat :=
  let r := loopN (drawStep fb) (s.h / 8) (s, [])
  ({ r.1 with first_draw := false }, r.2)

/-- SSD1306::begin state effects (bee_display_driver.cpp lines 25-35):
prev is assigned w*(h/8) zero bytes and first_draw is set to true. -/
def beginState (W H : Nat) : OledState :=
  { w := W, h := H, prev := fun _ => 0, first_draw := true }

/-! ## Bluetooth bridge (bee_bt_bridge.cpp) -/

/-- Result of rfcomm_accept_one: failed (socket/bind/listen/accept error,
returns -1), rejected (allow-list mismatch, returns -2 after closing the
client), or accepted (client fd). -/
inductive AcceptOutcome
  | failed
  | rejected
  | accepted
  deriving DecidableEq, Repr

/-- rfcomm_accept_one (bee_bt_bridge.cpp lines 80-119), with the socket
layer abstracted by sockOk.  After a successful accept, when an allow-list
identity is configured the remote identity is compared byte-for-byte
(memcmp over the 6-byte bdaddr_t); a mismatch closes the client and
returns -2. -/
def rfcomm_accept_one (sockOk : Bool) (haveAllow : Bool)
    (allowAddr remote : Fin 6 → Nat) : AcceptOutcome :=
  if !sockOk then .failed
  else if haveAllow && decide (∃ k : Fin 6, remote k ≠ allowAddr k) then .rejected
  else .accepted

/-- Observables of the RFCOMM relay loop (bee_bt_bridge.cpp lines 226-231). -/
structure BtRelayResult where
  forwarded : List (List Nat)
  framesRead : Nat
  upConnected : Bool
  deriving DecidableEq, Repr

/-- The RFCOMM relay loop: while recvn(cli, f, 6) succeeds (modelled by the
frame list being nonempty), ensure the upstream connection (reconnect
oracle rOk) and forward the frame (send oracle sOk); a reconnect failure
breaks the loop, and a send failure closes the upstream, marks it
disconnected and breaks the loop. -/
def bt_relay (frames : List (List Nat)) (up : Bool) (rOk sOk : Nat → Bool)
    (t : Nat) : BtRelayResult :=
  match frames with
  | [] => ⟨[], 0, up⟩
  | f :: rest =>
    let up1 := if up then true else rOk t
    if !up1 then ⟨[], 1, false⟩
    else if sOk t then
      let r := bt_relay rest true rOk sOk (t + 1)
      ⟨f :: r.forwarded, r.framesRead + 1, r.upConnected⟩
    else ⟨[], 1, false⟩

/-- Observables of one iteration of the bridge main loop
(bee_bt_bridge.cpp lines 207-233). -/
structure BtIterResult where
  forwarded : List (List Nat)
  clientClosed : Bool
  framesRead : Nat
  returnsToListening : Bool
  deriving DecidableEq, Repr

/-- One iteration of the RFCOMM bridge main loop: accept one connection;
a rejected or failed accept loops back to listening; an accepted client is
relayed after the upstream connection is ensured (preOk), and the client
is closed when the session ends.  Every path returns to the listening
state (the loop has no exit). -/
def bt_main_iter (sockOk haveAllow : Bool) (allowAddr remote : Fin 6 → Nat)
    (up : Bool) (preOk : Bool) (rOk sOk : Nat → Bool)
    (frames : List (List Nat)) : BtIterResult :=
  match rfcomm_accept_one sockOk haveAllow allowAddr remote with
  | .failed => ⟨[], false, 0, true⟩
  | .rejected => ⟨[], true, 0, true⟩
  | .accepted =>
    if !up && !preOk then ⟨[], true, 0, true⟩
    else
      let r := bt_relay frames true rOk sOk 0
      ⟨r.forwarded, true, r.framesRead, true⟩

/-! ## UDP bridge and process startup/exit (bee_udp_bridge.cpp,
bee_spectrum_display.cpp, bee_display_driver.cpp) -/

/-- Observables of one iteration of the UDP relay loop
(bee_udp_bridge.cpp lines 343-354). -/
structure UdpStepResult where
  upConnected : Bool
  forwarded : Option (List Nat)
  reconnectAttempted : Bool
  exitCode : Option Nat
  deriving DecidableEq, Repr

/-- One iteration of the UDP relay loop: a datagram whose length is not 6
is dropped; otherwise, when the upstream is disconnected a reconnect is
attempted (failure drops the datagram and continues); a send failure
closes the upstream and marks it disconnected.  exitCode records whether
the iteration returns from main: no branch of the loop body does, so it
is none on every path. -/
def udp_step (up : Bool) (dgram : List Nat) (rOk sOk : Bool) : UdpStepResult :=
  if dgram.length ≠ 6 then ⟨up, none, false, none⟩
  else
    let up1 := if up then true else rOk
    if !up then
      if !up1 then ⟨false, none, true, none⟩
      else if sOk then ⟨true, some dgram, true, none⟩ else ⟨false, none, true, none⟩
    else if sOk then ⟨true, some dgram, false, none⟩
    else ⟨false, none, false, none⟩

/-- bee_udp_bridge.cpp lines 332-340: socket() failure or bind() failure
returns 1 from main; otherwise the process enters the relay loop (none). -/
def udp_main_startup (socketOk bindOk : Bool) : Option Nat :=
  if !socketOk then some 1
  else if !bindOk then some 1
  else none

/-- bee_display_driver.cpp lines 146-149: oled.begin failure returns 1. -/
def display_main_startup (beginOk : Bool) : Option Nat :=
  if !beginOk then some 1 else none

/-- bee_spectrum_display.cpp lines 40-41: a negative fd from tcp_connect
(socket creation failure) returns 1. -/
def spectrum_main_startup (connectFdOk : Bool) : Option Nat :=
  if !connectFdOk then some 1 else none

/-- The live relay loop of bee_spectrum_display.cpp lines 84-89: while
recvn succeeds, unpack, rasterize and forward; a send failure breaks the
loop; when the loop ends main returns 0.  some code means the process
returns from main with that exit status. -/
def spectrum_live_loop (frames : List (List Nat)) (sOk : Nat → Bool) (t : Nat) : Option Nat :=
  match frames with
  | [] => some 0
  | _f :: rest => if sOk t then spectrum_live_loop rest sOk (t + 1) else some 0

/-- The normal-mode loop of bee_display_driver.cpp lines 187-192: while
recvn succeeds the grid is blitted and drawn; when the stream ends or
fails, the loop exits and main returns 0.  some code means the process
returns from main with that exit status. -/
def display_main_loop : List (List Nat) → Option Nat
  | [] => some 0
  | _g :: rest => display_main_loop rest

/-! ## Loop unfolding lemmas -/

theorem loopN_zero {α : Type} (f : Nat → α → α) (a : α) : loopN f 0 a = a := rfl

theorem loopN_succ {α : Type} (f : Nat → α → α) (n : Nat) (a : α) :
    loopN f (n + 1) a = f n (loopN f n a) := rfl

/-! ## Codec: bit-level normal forms of the six packed bytes -/

theorem pack_byte0 (v : Nat → Nat) :
    pack_3bit_16 v 0 =
      ((0 ||| ((v 0 &&& 7) <<< 0 &&& 255)) ||| ((v 1 &&& 7) <<< 3 &&& 255)) |||
        ((v 2 &&& 7) <<< 6 &&& 255) := rfl

theorem pack_byte1 (v : Nat → Nat) :
    pack_3bit_16 v 1 =
      (((0 ||| ((v 2 &&& 7) >>> 2 &&& 255)) ||| ((v 3 &&& 7) <<< 1 &&& 255)) |||
        ((v 4 &&& 7) <<< 4 &&& 255)) ||| ((v 5 &&& 7) <<< 7 &&& 255) := rfl

theorem pack_byte2 (v : Nat → Nat) :
    pack_3bit_16 v 2 =
      ((0 ||| ((v 5 &&& 7) >>> 1 &&& 255)) ||| ((v 6 &&& 7) <<< 2 &&& 255)) |||
        ((v 7 &&& 7) <<< 5 &&& 255) := rfl

theorem pack_byte3 (v : Nat → Nat) :
    pack_3bit_16 v 3 =
      ((0 ||| ((v 8 &&& 7) <<< 0 &&& 255)) ||| ((v 9 &&& 7) <<< 3 &&& 255)) |||
        ((v 10 &&& 7) <<< 6 &&& 255) := rfl

theorem pack_byte4 (v : Nat → Nat) :
    pack_3bit_16 v 4 =
      (((0 ||| ((v 10 &&& 7) >>> 2 &&& 255)) ||| ((v 11 &&& 7) <<< 1 &&& 255)) |||
        ((v 12 &&& 7) <<< 4 &&& 255)) ||| ((v 13 &&& 7) <<< 7 &&& 255) := rfl

theorem pack_byte5 (v : Nat → Nat) :
    pack_3bit_16 v 5 =
      ((0 ||| ((v 13 &&& 7) >>> 1 &&& 255)) ||| ((v 14 &&& 7) <<< 2 &&& 255)) |||
        ((v 15 &&& 7) <<< 5 &&& 255) := rfl

/-! ## Codec: bitwise-to-arithmetic bridges, decided over the bounded domain -/

theorem pack_bridge0 : ∀ a b c : Fin 8,
    ((0 ||| (a.val <<< 0 &&& 255)) ||| (b.val <<< 3 &&& 255)) ||| (c.val <<< 6 &&& 255) =
      a.val + 8 * b.val + 64 * (c.val % 4) := by decide

theorem pack_bridge1 : ∀ a b c d : Fin 8,
    (((0 ||| (a.val >>> 2 &&& 255)) ||| (b.val <<< 1 &&& 255)) ||| (c.val <<< 4 &&& 255)) |||
      (d.val <<< 7 &&& 255) = a.val / 4 + 2 * b.val + 16 * c.val + 128 * (d.val % 2) := by decide

theorem pack_bridge2 : ∀ a b c : Fin 8,
    ((0 ||| (a.val >>> 1 &&& 255)) ||| (b.val <<< 2 &&& 255)) ||| (c.val <<< 5 &&& 255) =
      a.val / 2 + 4 * b.val + 32 * c.val := by decide

theorem and7_eq_self {x : Nat} (h : x ≤ 7) : x &&& 7 = x := by
  have h8 : ∀ a : Fin 8, a.val &&& 7 = a.val := by decide
  simpa using h8 ⟨x, by omega⟩

/-- Byte 0 of the packed frame, arithmetically, for in-range samples. -/
theorem pack_byte0_arith (v : Nat → Nat) (h0 : v 0 ≤ 7) (h1 : v 1 ≤ 7) (h2 : v 2 ≤ 7) :
    pack_3bit_16 v 0 = v 0 + 8 * v 1 + 64 * (v 2 % 4) := by
  rw [pack_byte0, and7_eq_self h0, and7_eq_self h1, and7_eq_self h2]
  exact pack_bridge0 ⟨v 0, by omega⟩ ⟨v 1, by omega⟩ ⟨v 2, by omega⟩

/-- Byte 1 of the packed frame, arithmetically, for in-range samples. -/
theorem pack_byte1_arith (v : Nat → Nat) (h2 : v 2 ≤ 7) (h3 : v 3 ≤ 7) (h4 : v 4 ≤ 7)
    (h5 : v 5 ≤ 7) :
    pack_3bit_16 v 1 = v 2 / 4 + 2 * v 3 + 16 * v 4 + 128 * (v 5 % 2) := by
  rw [pack_byte1, and7_eq_self h2, and7_eq_self h3, and7_eq_self h4, and7_eq_self h5]
  exact pack_bridge1 ⟨v 2, by omega⟩ ⟨v 3, by omega⟩ ⟨v 4, by omega⟩ ⟨v 5, by omega⟩

/-- Byte 2 of the packed frame, arithmetically, for in-range samples. -/
theorem pack_byte2_arith (v : Nat → Nat) (h5 : v 5 ≤ 7) (h6 : v 6 ≤ 7) (h7 : v 7 ≤ 7) :
    pack_3bit_16 v 2 = v 5 / 2 + 4 * v 6 + 32 * v 7 := by
  rw [pack_byte2, and7_eq_self h5, and7_eq_self h6, and7_eq_self h7]
  exact pack_bridge2 ⟨v 5, by omega⟩ ⟨v 6, by omega⟩ ⟨v 7, by omega⟩

/-- Byte 3 of the packed frame, arithmetically, for in-range samples. -/
theorem pack_byte3_arith (v : Nat → Nat) (h8 : v 8 ≤ 7) (h9 : v 9 ≤ 7) (h10 : v 10 ≤ 7) :
    pack_3bit_16 v 3 = v 8 + 8 * v 9 + 64 * (v 10 % 4) := by
  rw [pack_byte3, and7_eq_self h8, and7_eq_self h9, and7_eq_self h10]
  exact pack_bridge0 ⟨v 8, by omega⟩ ⟨v 9, by omega⟩ ⟨v 10, by omega⟩

/-- Byte 4 of the packed frame, arithmetically, for in-range samples. -/
theorem pack_byte4_arith (v : Nat → Nat) (h10 : v 10 ≤ 7) (h11 : v 11 ≤ 7) (h12 : v 12 ≤ 7)
    (h13 : v 13 ≤ 7) :
    pack_3bit_16 v 4 = v 10 / 4 + 2 * v 11 + 16 * v 12 + 128 * (v 13 % 2) := by
  rw [pack_byte4, and7_eq_self h10, and7_eq_self h11, and7_eq_self h12, and7_eq_self h13]
  exact pack_bridge1 ⟨v 10, by omega⟩ ⟨v 11, by omega⟩ ⟨v 12, by omega⟩ ⟨v 13, by omega⟩

/-- Byte 5 of the packed frame, arithmetically, for in-range samples. -/
theorem pack_byte5_arith (v : Nat → Nat) (h13 : v 13 ≤ 7) (h14 : v 14 ≤ 7) (h15 : v 15 ≤ 7) :
    pack_3bit_16 v 5 = v 13 / 2 + 4 * v 14 + 32 * v 15 := by
  rw [pack_byte5, and7_eq_self h13, and7_eq_self h14, and7_eq_self h15]
  exact pack_bridge2 ⟨v 13, by omega⟩ ⟨v 14, by omega⟩ ⟨v 15, by omega⟩

/-! ## Codec: normal forms of the 16 unpacked samples -/

theorem unpack_eq_0 (f : Nat → Nat) : unpack_3bit_16 f 0 = f 0 &&& 7 := rfl
theorem unpack_eq_1 (f : Nat → Nat) : unpack_3bit_16 f 1 = (f 0 >>> 3) &&& 7 := rfl
theorem unpack_eq_2 (f : Nat → Nat) :
    unpack_3bit_16 f 2 = ((f 0 >>> 6) ||| (f 1 <<< 2)) &&& 7 := rfl
theorem unpack_eq_3 (f : Nat → Nat) : unpack_3bit_16 f 3 = (f 1 >>> 1) &&& 7 := rfl
theorem unpack_eq_4 (f : Nat → Nat) : unpack_3bit_16 f 4 = (f 1 >>> 4) &&& 7 := rfl
theorem unpack_eq_5 (f : Nat → Nat) :
    unpack_3bit_16 f 5 = ((f 1 >>> 7) ||| (f 2 <<< 1)) &&& 7 := rfl
theorem unpack_eq_6 (f : Nat → Nat) : unpack_3bit_16 f 6 = (f 2 >>> 2) &&& 7 := rfl
theorem unpack_eq_7 (f : Nat → Nat) : unpack_3bit_16 f 7 = (f 2 >>> 5) &&& 7 := rfl
theorem unpack_eq_8 (f : Nat → Nat) : unpack_3bit_16 f 8 = f 3 &&& 7 := rfl
theorem unpack_eq_9 (f : Nat → Nat) : unpack_3bit_16 f 9 = (f 3 >>> 3) &&& 7 := rfl
theorem unpack_eq_10 (f : Nat → Nat) :
    unpack_3bit_16 f 10 = ((f 3 >>> 6) ||| (f 4 <<< 2)) &&& 7 := rfl
theorem unpack_eq_11 (f : Nat → Nat) : unpack_3bit_16 f 11 = (f 4 >>> 1) &&& 7 := rfl
theorem unpack_eq_12 (f : Nat → Nat) : unpack_3bit_16 f 12 = (f 4 >>> 4) &&& 7 := rfl
theorem unpack_eq_13 (f : Nat → Nat) :
    unpack_3bit_16 f 13 = ((f 4 >>> 7) ||| (f 5 <<< 1)) &&& 7 := rfl
theorem unpack_eq_14 (f : Nat → Nat) : unpack_3bit_16 f 14 = (f 5 >>> 2) &&& 7 := rfl
theorem unpack_eq_15 (f : Nat → Nat) : unpack_3bit_16 f 15 = (f 5 >>> 5) &&& 7 := rfl

/-! ## Codec: arithmetic readings of the unpack expressions on byte values -/

theorem unpack_shr0 (B : Nat) (hB : B < 256) : B &&& 7 = B % 8 := by
  have h := (by decide : ∀ b : Fin 256, b.val &&& 7 = b.val % 8)
  exact h ⟨B, hB⟩

theorem unpack_shr1 (B : Nat) (hB : B < 256) : (B >>> 1) &&& 7 = B / 2 % 8 := by
  have h := (by decide : ∀ b : Fin 256, (b.val >>> 1) &&& 7 = b.val / 2 % 8)
  exact h ⟨B, hB⟩

theorem unpack_shr2 (B : Nat) (hB : B < 256) : (B >>> 2) &&& 7 = B / 4 % 8 := by
  have h := (by decide : ∀ b : Fin 256, (b.val >>> 2) &&& 7 = b.val / 4 % 8)
  exact h ⟨B, hB⟩

theorem unpack_shr3 (B : Nat) (hB : B < 256) : (B >>> 3) &&& 7 = B / 8 % 8 := by
  have h := (by decide : ∀ b : Fin 256, (b.val >>> 3) &&& 7 = b.val / 8 % 8)
  exact h ⟨B, hB⟩

theorem unpack_shr4 (B : Nat) (hB : B < 256) : (B >>> 4) &&& 7 = B / 16 % 8 := by
  have h := (by decide : ∀ b : Fin 256, (b.val >>> 4) &&& 7 = b.val / 16 % 8)
  exact h ⟨B, hB⟩

theorem unpack_shr5 (B : Nat) (hB : B < 256) : (B >>> 5) &&& 7 = B / 32 % 8 := by
  have h := (by decide : ∀ b : Fin 256, (b.val >>> 5) &&& 7 = b.val / 32 % 8)
  exact h ⟨B, hB⟩

theorem and_or_distrib (a b c : Nat) : (a ||| b) &&& c = (a &&& c) ||| (b &&& c) := by
  apply Nat.eq_of_testBit_eq
  intro k
  simp only [Nat.testBit_land, Nat.testBit_lor]
  cases Nat.testBit a k <;> cases Nat.testBit b k <;> cases Nat.testBit c k <;> rfl

/-- The straddling field at bit offset 6: low two bits from byte B, one
more bit from byte C. -/
theorem unpack_str6 (B C : Nat) (hB : B < 256) (hC : C < 256) :
    ((B >>> 6) ||| (C <<< 2)) &&& 7 = B / 64 + 4 * (C % 2) := by
  rw [and_or_distrib]
  have e1 : (B >>> 6) &&& 7 = B / 64 := by
    have h := (by decide : ∀ b : Fin 256, (b.val >>> 6) &&& 7 = b.val / 64)
    exact h ⟨B, hB⟩
  have e2 : (C <<< 2) &&& 7 = 4 * (C % 2) := by
    have h := (by decide : ∀ b : Fin 256, (b.val <<< 2) &&& 7 = 4 * (b.val % 2))
    exact h ⟨C, hC⟩
  rw [e1, e2]
  have h := (by decide : ∀ a : Fin 4, ∀ b : Fin 2, a.val ||| 4 * b.val = a.val + 4 * b.val)
  exact h ⟨B / 64, by omega⟩ ⟨C % 2, by omega⟩

/-- The straddling field at bit offset 7: one bit from byte B, two more
bits from byte C. -/
theorem unpack_str7 (B C : Nat) (hB : B < 256) (hC : C < 256) :
    ((B >>> 7) ||| (C <<< 1)) &&& 7 = B / 128 + 2 * (C % 4) := by
  rw [and_or_distrib]
  have e1 : (B >>> 7) &&& 7 = B / 128 := by
    have h := (by decide : ∀ b : Fin 256, (b.val >>> 7) &&& 7 = b.val / 128)
    exact h ⟨B, hB⟩
  have e2 : (C <<< 1) &&& 7 = 2 * (C % 4) := by
    have h := (by decide : ∀ b : Fin 256, (b.val <<< 1) &&& 7 = 2 * (b.val % 4))
    exact h ⟨C, hC⟩
  rw [e1, e2]
  have h := (by decide : ∀ a : Fin 2, ∀ b : Fin 4, a.val ||| 2 * b.val = a.val + 2 * b.val)
  exact h ⟨B / 128, by omega⟩ ⟨C % 4, by omega⟩

/-- pack_3bit_16 only depends on the samples through their low 3 bits. -/
theorem pack_congr (v w : Nat → Nat) (h : ∀ i, i < 16 → v i &&& 7 = w i &&& 7) :
    pack_3bit_16 v = pack_3bit_16 w := by
  have aux : ∀ n, n ≤ 16 → ∀ out : Nat → Nat,
      loopN (packBody v) n out = loopN (packBody w) n out := by
    intro n
    induction n with
    | zero => intro _ out; rfl
    | succ k ih =>
      intro hk out
      simp only [loopN]
      rw [ih (by omega) out]
      simp only [packBody]
      rw [h k (by omega)]
  exact aux 16 (le_refl 16) (fun _ => 0)

/-- Samples produced by unpack_3bit_16 are masked to 3 bits. -/
theorem unpack_le_7 (f : Nat → Nat) (i : Nat) : unpack_3bit_16 f i ≤ 7 :=
  Nat.and_le_right

/-- C1.  For every BandVector v of 16 samples each in [0,7], unpacking the
6-byte frame produced by packing v yields v again:
unpack_3bit_16 (pack_3bit_16 v) i = v i for every sample index i < 16. -/
theorem unpack_pack_roundtrip (v : Nat → Nat) (hv : ∀ i, i < 16 → v i ≤ 7) :
    ∀ i, i < 16 → unpack_3bit_16 (pack_3bit_16 v) i = v i := by
  have h0 := hv 0 (by omega)
  have h1 := hv 1 (by omega)
  have h2 := hv 2 (by omega)
  have h3 := hv 3 (by omega)
  have h4 := hv 4 (by omega)
  have h5 := hv 5 (by omega)
  have h6 := hv 6 (by omega)
  have h7 := hv 7 (by omega)
  have h8 := hv 8 (by omega)
  have h9 := hv 9 (by omega)
  have h10 := hv 10 (by omega)
  have h11 := hv 11 (by omega)
  have h12 := hv 12 (by omega)
  have h13 := hv 13 (by omega)
  have h14 := hv 14 (by omega)
  have h15 := hv 15 (by omega)
  have e0 := pack_byte0_arith v h0 h1 h2
  have e1 := pack_byte1_arith v h2 h3 h4 h5
  have e2 := pack_byte2_arith v h5 h6 h7
  have e3 := pack_byte3_arith v h8 h9 h10
  have e4 := pack_byte4_arith v h10 h11 h12 h13
  have e5 := pack_byte5_arith v h13 h14 h15
  intro i hi
  interval_cases i
  · rw [unpack_eq_0, e0, unpack_shr0 _ (by omega)]; omega
  · rw [unpack_eq_1, e0, unpack_shr3 _ (by omega)]; omega
  · rw [unpack_eq_2, e0, e1, unpack_str6 _ _ (by omega) (by omega)]; omega
  · rw [unpack_eq_3, e1, unpack_shr1 _ (by omega)]; omega
  · rw [unpack_eq_4, e1, unpack_shr4 _ (by omega)]; omega
  · rw [unpack_eq_5, e1, e2, unpack_str7 _ _ (by omega) (by omega)]; omega
  · rw [unpack_eq_6, e2, unpack_shr2 _ (by omega)]; omega
  · rw [unpack_eq_7, e2, unpack_shr5 _ (by omega)]; omega
  · rw [unpack_eq_8, e3, unpack_shr0 _ (by omega)]; omega
  · rw [unpack_eq_9, e3, unpack_shr3 _ (by omega)]; omega
  · rw [unpack_eq_10, e3, e4, unpack_str6 _ _ (by omega) (by omega)]; omega
  · rw [unpack_eq_11, e4, unpack_shr1 _ (by omega)]; omega
  · rw [unpack_eq_12, e4, unpack_shr4 _ (by omega)]; omega
  · rw [unpack_eq_13, e4, e5, unpack_str7 _ _ (by omega) (by omega)]; omega
  · rw [unpack_eq_14, e5, unpack_shr2 _ (by omega)]; omega
  · rw [unpack_eq_15, e5, unpack_shr5 _ (by omega)]; omega

/-- Witness for C1 at the concrete vector i ↦ i % 8 and sample index 11. -/
theorem unpack_pack_roundtrip_witness :
    unpack_3bit_16 (pack_3bit_16 (fun i => i % 8)) 11 = (fun i => i % 8) 11 :=
  unpack_pack_roundtrip (fun i => i % 8) (by decide) 11 (by decide)

/-- C8.  For every 16-sample vector containing a sample greater than 7 at
position j, packing the vector produces the same 6-byte frame as packing
the vector with that sample replaced by its low 3 bits (sample &&& 7):
out-of-range samples are masked, never rejected. -/
theorem pack_mask_equiv (v : Nat → Nat) (j : Nat) (hj : j < 16) (hgt : 7 < v j) :
    pack_3bit_16 v = pack_3bit_16 (Function.update v j (v j &&& 7)) := by
  apply pack_congr
  intro i hi
  by_cases hij : i = j
  · subst hij
    rw [Function.update_same]
    have hle : v i &&& 7 ≤ 7 := Nat.and_le_right
    rw [and7_eq_self hle]
  · rw [Function.update_noteq hij]

/-- Witness for C8 at the constant vector with all samples 9 and j = 0. -/
theorem pack_mask_equiv_witness :
    pack_3bit_16 (fun _ => 9) =
      pack_3bit_16 (Function.update (fun _ => 9) 0 ((fun _ => (9 : Nat)) 0 &&& 7)) :=
  pack_mask_equiv (fun _ => 9) 0 (by decide) (by decide)

/-- C9.  unpack_3bit_16 is a total function; on every sample index i < 16
it reads only the first 6 bytes of its input (two inputs agreeing on bytes
0..5 unpack identically), and every sample it produces lies in [0,7]. -/
theorem unpack_reads_only_frame_and_bounded (f g : Nat → Nat)
    (hfg : ∀ b, b < 6 → f b = g b) :
    ∀ i, i < 16 → unpack_3bit_16 f i = unpack_3bit_16 g i ∧ unpack_3bit_16 f i ≤ 7 := by
  have e0 := hfg 0 (by omega)
  have e1 := hfg 1 (by omega)
  have e2 := hfg 2 (by omega)
  have e3 := hfg 3 (by omega)
  have e4 := hfg 4 (by omega)
  have e5 := hfg 5 (by omega)
  intro i hi
  refine ⟨?_, unpack_le_7 f i⟩
  interval_cases i <;>
    simp only [unpack_eq_0, unpack_eq_1, unpack_eq_2, unpack_eq_3, unpack_eq_4, unpack_eq_5,
      unpack_eq_6, unpack_eq_7, unpack_eq_8, unpack_eq_9, unpack_eq_10, unpack_eq_11,
      unpack_eq_12, unpack_eq_13, unpack_eq_14, unpack_eq_15, e0, e1, e2, e3, e4, e5]

/-- Witness for C9: two buffers agreeing on bytes 0..5 but not beyond,
unpacked at sample index 4. -/
theorem unpack_reads_only_frame_and_bounded_witness :
    unpack_3bit_16 (fun b => b + 7) 4 = unpack_3bit_16 (fun b => if b < 6 then b + 7 else 0) 4 ∧
      unpack_3bit_16 (fun b => b + 7) 4 ≤ 7 :=
  unpack_reads_only_frame_and_bounded (fun b => b + 7) (fun b => if b < 6 then b + 7 else 0)
    (by decide) 4 (by decide)

/-! ## Rasterizer characterization -/

theorem loopN_congr {α : Type} (f g : Nat → α → α) (h : ∀ k a, f k a = g k a) :
    ∀ n a, loopN f n a = loopN g n a := by
  intro n
  induction n with
  | zero => intro a; rfl
  | succ k ih => intro a; rw [loopN_succ, loopN_succ, ih, h]

/-- Decomposition of a row-major linear index is unique. -/
theorem rowmajor_inj {COLS a b x x' : Nat} (hx : x < COLS) (hx' : x' < COLS)
    (h : a * COLS + x = b * COLS + x') : a = b ∧ x = x' := by
  have hmod : (a * COLS + x) % COLS = (b * COLS + x') % COLS := by rw [h]
  rw [Nat.add_comm (a * COLS) x, Nat.add_comm (b * COLS) x', Nat.add_mul_mod_self_right,
    Nat.add_mul_mod_self_right, Nat.mod_eq_of_lt hx, Nat.mod_eq_of_lt hx'] at hmod
  subst hmod
  have hCOLS : 0 < COLS := by omega
  have hmul : a * COLS = b * COLS := by omega
  exact ⟨Nat.eq_of_mul_eq_mul_right hCOLS hmul, rfl⟩

/-- Value of the grid after the inner bar-fill loop for one column. -/
theorem fill_col_char (COLS ROWS x : Nat) (h : Nat) (g : Nat → Nat) (i : Nat) :
    loopN (fun r g => Function.update g ((ROWS - 1 - r) * COLS + x) 1) h g i =
      if ∃ r, r < h ∧ i = (ROWS - 1 - r) * COLS + x then 1 else g i := by
  induction h with
  | zero =>
    rw [loopN_zero]
    have : ¬∃ r, r < 0 ∧ i = (ROWS - 1 - r) * COLS + x := by
      rintro ⟨r, hr, -⟩; omega
    rw [if_neg this]
  | succ k ih =>
    rw [loopN_succ]
    by_cases hik : i = (ROWS - 1 - k) * COLS + x
    · rw [hik, Function.update_same]
      rw [if_pos ⟨k, by omega, rfl⟩]
    · rw [Function.update_noteq hik, ih]
      by_cases hex : ∃ r, r < k ∧ i = (ROWS - 1 - r) * COLS + x
      · obtain ⟨r, hr, hi⟩ := hex
        rw [if_pos ⟨r, hr, hi⟩, if_pos ⟨r, by omega, hi⟩]
      · rw [if_neg hex, if_neg]
        rintro ⟨r, hr, hi⟩
        rcases Nat.lt_succ_iff_lt_or_eq.mp hr with hr' | hr'
        · exact hex ⟨r, hr', hi⟩
        · exact hik (hr' ▸ hi)

/-- Value of the grid after the outer column loop over columns 0..n-1. -/
theorem draw_cols_char (bands : Nat → Nat) (COLS ROWS : Nat) (n : Nat) (g : Nat → Nat)
    (i : Nat) :
    loopN
        (fun x g =>
          loopN (fun r g => Function.update g ((ROWS - 1 - r) * COLS + x) 1)
            (min ROWS (bands x)) g) n g i =
      if ∃ x', x' < n ∧ ∃ r, r < min ROWS (bands x') ∧ i = (ROWS - 1 - r) * COLS + x' then 1
      else g i := by
  induction n with
  | zero =>
    rw [loopN_zero]
    have : ¬∃ x', x' < 0 ∧ ∃ r, r < min ROWS (bands x') ∧ i = (ROWS - 1 - r) * COLS + x' := by
      rintro ⟨x', hx', -⟩; omega
    rw [if_neg this]
  | succ k ih =>
    rw [loopN_succ, fill_col_char, ih]
    by_cases hA : ∃ r, r < min ROWS (bands k) ∧ i = (ROWS - 1 - r) * COLS + k
    · obtain ⟨r, hr, hi⟩ := hA
      rw [if_pos ⟨r, hr, hi⟩, if_pos ⟨k, by omega, r, hr, hi⟩]
    · rw [if_neg hA]
      by_cases hB : ∃ x', x' < k ∧ ∃ r, r < min ROWS (bands x') ∧ i = (ROWS - 1 - r) * COLS + x'
      · obtain ⟨x', hx', r, hr, hi⟩ := hB
        rw [if_pos ⟨x', hx', r, hr, hi⟩, if_pos ⟨x', by omega, r, hr, hi⟩]
      · rw [if_neg hB, if_neg]
        rintro ⟨x', hx', r, hr, hi⟩
        rcases Nat.lt_succ_iff_lt_or_eq.mp hx' with hx'' | hx''
        · exact hB ⟨x', hx'', r, hr, hi⟩
        · subst hx''
          exact hA ⟨r, hr, hi⟩

/-- C7.  For every BandVector and grid dimensions COLS x ROWS, the
rasterizer sets, at pixel (x, y) read from linear index y*COLS + x, the
value 1 exactly when x < 16 (columns at 16 and beyond stay blank) and the
pixel lies in the bottom h = min(ROWS, bands x) rows, i.e. y = ROWS-1-r
for some r < h; every other pixel is 0. -/
theorem draw_bars_characterization (bands : Nat → Nat) (COLS ROWS x y : Nat)
    (hx : x < COLS) (hy : y < ROWS) :
    draw_bars bands COLS ROWS (y * COLS + x) =
      if x < 16 ∧ ∃ r, r < min ROWS (bands x) ∧ y = ROWS - 1 - r then 1 else 0 := by
  unfold draw_bars
  rw [draw_cols_char]
  by_cases hc : x < 16 ∧ ∃ r, r < min ROWS (bands x) ∧ y = ROWS - 1 - r
  · obtain ⟨h16, r, hr, hyr⟩ := hc
    rw [if_pos ⟨x, by omega, r, hr, by rw [hyr]⟩, if_pos ⟨h16, r, hr, hyr⟩]
  · rw [if_neg hc, if_neg]
    rintro ⟨x', hx', r, hr, hi⟩
    have hx'C : x' < COLS := by omega
    obtain ⟨hyr, hxx⟩ := rowmajor_inj hx hx'C hi
    apply hc
    rw [← hxx] at hr
    exact ⟨by omega, r, hr, hyr⟩

/-- Witness for C7: sample[0] = 3, ROWS = 8, COLS = 16, column 0.  Row 5
(the highest of the bottom three rows) is set and row 4 (just above the
bar) is clear. -/
theorem draw_bars_characterization_witness :
    draw_bars (fun i => if i = 0 then 3 else 0) 16 8 (5 * 16 + 0) = 1 ∧
      draw_bars (fun i => if i = 0 then 3 else 0) 16 8 (4 * 16 + 0) = 0 := by
  constructor
  · rw [draw_bars_characterization (fun i => if i = 0 then 3 else 0) 16 8 0 5 (by decide)
      (by decide)]
    decide
  · rw [draw_bars_characterization (fun i => if i = 0 then 3 else 0) 16 8 0 4 (by decide)
      (by decide)]
    decide

/-! ## Display blit: only nonzero-ness of a cell matters -/

/-- blit_grid_to_fb only depends on the grid through the zero test of each
cell. -/
theorem blit_congr (g1 g2 : Nat → Nat) (COLS ROWS scrW scrH : Nat)
    (h : ∀ i, g1 i ≠ 0 ↔ g2 i ≠ 0) :
    blit_grid_to_fb g1 COLS ROWS scrW scrH = blit_grid_to_fb g2 COLS ROWS scrW scrH := by
  unfold blit_grid_to_fb
  apply loopN_congr
  intro gy fb
  apply loopN_congr
  intro gx fb'
  exact if_congr (h (gy * COLS + gx)) rfl rfl

/-- C10.  For every pixel grid, the framebuffer produced by blitting the
grid equals the framebuffer produced by blitting the grid with every
nonzero cell byte replaced by 1: the display driver treats any nonzero
cell as a lit pixel, and the 0-or-1 wire-format constraint is not
enforced. -/
theorem blit_nonzero_normalization (grid : Nat → Nat) (COLS ROWS scrW scrH : Nat) :
    blit_grid_to_fb grid COLS ROWS scrW scrH =
      blit_grid_to_fb (fun i => if grid i ≠ 0 then 1 else 0) COLS ROWS scrW scrH := by
  apply blit_congr
  intro i
  by_cases h : grid i = 0 <;> simp [h]

/-! ## Display driver: dirty-page diffing -/

/-- The page loop leaves the geometry and the first_draw flag unchanged. -/
theorem drawLoop_fields (fb : Nat → Nat) (n : Nat) (s : OledState) (ws : List Nat) :
    (loopN (drawStep fb) n (s, ws)).1.w = s.w ∧ (loopN (drawStep fb) n (s, ws)).1.h = s.h ∧
      (loopN (drawStep fb) n (s, ws)).1.first_draw = s.first_draw := by
  induction n with
  | zero => exact ⟨rfl, rfl, rfl⟩
  | succ k ih =>
    rw [loopN_succ]
    simp only [drawStep]
    split
    · exact ih
    · exact ih

/-- After the page loop has processed pages 0..n-1 with a nonempty cache,
the cache agrees with the incoming buffer on every processed page. -/
theorem drawLoop_prev_agree (fb : Nat → Nat) (s : OledState) (ws : List Nat)
    (hne : s.w * (s.h / 8) ≠ 0) :
    ∀ n, ∀ p, p < n → ∀ j, j < s.w →
      (loopN (drawStep fb) n (s, ws)).1.prev (p * s.w + j) = fb (p * s.w + j) := by
  intro n
  induction n with
  | zero => intro p hp; omega
  | succ k ih =>
    intro p hp j hj
    obtain ⟨hw, hh, -⟩ := drawLoop_fields fb k s ws
    have hempty : prevEmpty (loopN (drawStep fb) k (s, ws)).1 = false := by
      simp only [prevEmpty, hw, hh]
      simpa using hne
    rw [loopN_succ]
    simp only [drawStep, hempty]
    split
    · -- page k changed: the cache now holds a copy of page k of fb
      simp only [hempty, Bool.false_eq_true, if_false]
      rcases Nat.lt_succ_iff_lt_or_eq.mp hp with hp' | hp'
      · -- an earlier page: the copy of page k does not touch it
        have hlt : p * s.w + j < k * s.w := by
          have h1 : p * s.w + j < (p + 1) * s.w := by
            rw [Nat.succ_mul]; omega
          have h2 : (p + 1) * s.w ≤ k * s.w := Nat.mul_le_mul_right _ (by omega)
          omega
        rw [hw]
        rw [if_neg (by omega)]
        exact ih p hp' j hj
      · subst hp'
        rw [hw]
        rw [if_pos ⟨by omega, by omega⟩]
    · -- page k unchanged: first_draw was false and the page bytes agree
      rename_i hnc
      rcases Nat.lt_succ_iff_lt_or_eq.mp hp with hp' | hp'
      · exact ih p hp' j hj
      · subst hp'
        simp only [Bool.not_false, Bool.true_and, Bool.or_eq_true, not_or,
          Bool.not_eq_true] at hnc
        obtain ⟨-, hdif⟩ := hnc
        simp only [pageDiffers, hw, decide_eq_false_iff_not, not_exists] at hdif
        have hj' := hdif j
        show (loopN (drawStep fb) p (s, ws)).1.prev (p * s.w + j) = fb (p * s.w + j)
        omega

/-- A page loop in which no page tests as changed leaves the state and the
write list untouched. -/
theorem drawLoop_no_change (fb : Nat → Nat) (s : OledState) (ws : List Nat) (n : Nat)
    (h : ∀ p, p < n → (s.first_draw || (!prevEmpty s && pageDiffers s fb p)) = false) :
    loopN (drawStep fb) n (s, ws) = (s, ws) := by
  induction n with
  | zero => rfl
  | succ k ih =>
    rw [loopN_succ, ih (fun p hp => h p (by omega))]
    simp only [drawStep]
    rw [h k (by omega)]
    simp

/-- C5.  For every pixel grid and every driver state, after
render(grid); commit() has completed (modelled by one call of SSD1306
draw on the blitted framebuffer), running render(grid); commit() again
with the identical grid issues zero page writes: every page is skipped. -/
theorem draw_idempotent_after_commit (s : OledState) (grid : Nat → Nat)
    (COLS ROWS scrW scrH : Nat) :
    (draw (draw s (blit_grid_to_fb grid COLS ROWS scrW scrH)).1
        (blit_grid_to_fb grid COLS ROWS scrW scrH)).2 = [] := by
  generalize blit_grid_to_fb grid COLS ROWS scrW scrH = fb
  show (draw (draw s fb).1 fb).2 = []
  obtain ⟨hw, hh, -⟩ := drawLoop_fields fb (s.h / 8) s []
  simp only [draw]
  rw [drawLoop_no_change]
  intro p hp
  simp only [Bool.false_or]
  by_cases hemp : s.w * (s.h / 8) = 0
  · have : prevEmpty { (loopN (drawStep fb) (s.h / 8) (s, [])).1 with first_draw := false }
        = true := by
      simp only [prevEmpty, hw, hh]
      simpa using hemp
    rw [this]
    rfl
  · have hempty : prevEmpty { (loopN (drawStep fb) (s.h / 8) (s, [])).1 with
        first_draw := false } = false := by
      simp only [prevEmpty, hw, hh]
      simpa using hemp
    rw [hempty]
    have hagree := drawLoop_prev_agree fb s [] hemp (s.h / 8)
    have hdif : pageDiffers { (loopN (drawStep fb) (s.h / 8) (s, [])).1 with
        first_draw := false } fb p = false := by
      simp only [pageDiffers, hw, decide_eq_false_iff_not, not_exists]
      intro j hcon
      have hp' : p < s.h / 8 := by
        rw [hh] at hp
        exact hp
      exact hcon.2 ((hagree p hp' j hcon.1).symm)
    rw [hdif]
    rfl

/-- With first_draw set, every page tests as changed and is written in
order. -/
theorem drawLoop_first_draw (fb : Nat → Nat) (s : OledState) (hfd : s.first_draw = true) :
    ∀ n ws, (loopN (drawStep fb) n (s, ws)).2 = ws ++ List.range n := by
  intro n
  induction n with
  | zero => intro ws; simp [loopN_zero]
  | succ k ih =>
    intro ws
    obtain ⟨-, -, hfd'⟩ := drawLoop_fields fb k s ws
    rw [loopN_succ]
    simp only [drawStep]
    rw [hfd', hfd]
    simp only [Bool.true_or, if_true]
    show (loopN (drawStep fb) k (s, ws)).2 ++ [k] = ws ++ List.range (k + 1)
    rw [ih ws, List.range_succ, List.append_assoc]

/-- C6.  For every pixel grid, the first commit after initialize writes
every page of the framebuffer to the device regardless of content:
begin() sets first_draw, so all H/8 pages are written. -/
theorem first_draw_writes_all_pages (W H : Nat) (fb : Nat → Nat) :
    (draw (beginState W H) fb).2 = List.range (H / 8) := by
  simp only [draw]
  have := drawLoop_first_draw fb (beginState W H) rfl (H / 8) []
  simpa using this

/-! ## Bridge authorization and error handling -/

/-- C2.  For every configured allow-list peer identity and every
connecting peer whose identity is not byte-for-byte equal to it, the
Bluetooth bridge closes the connection, forwards no frame from that peer
to the outbound link, reads no frame, and returns to the Listening
state. -/
theorem bt_reject_unauthorized (haveAllow : Bool) (allowAddr remote : Fin 6 → Nat)
    (sockOk up preOk : Bool) (rOk sOk : Nat → Bool) (frames : List (List Nat))
    (hsock : sockOk = true) (hAllow : haveAllow = true)
    (hmis : ∃ k : Fin 6, remote k ≠ allowAddr k) :
    bt_main_iter sockOk haveAllow allowAddr remote up preOk rOk sOk frames =
      ⟨[], true, 0, true⟩ := by
  subst hsock
  subst hAllow
  simp [bt_main_iter, rfcomm_accept_one, decide_eq_true hmis]

/-- Witness for C2: allow-listed address 01:01:01:01:01:01, connecting
peer 02:02:02:02:02:02, one frame offered by the peer. -/
theorem bt_reject_unauthorized_witness :
    bt_main_iter true true (fun _ => 1) (fun _ => 2) false false (fun _ => true)
      (fun _ => true) [[0, 0, 0, 0, 0, 0]] = ⟨[], true, 0, true⟩ :=
  bt_reject_unauthorized true (fun _ => 1) (fun _ => 2) true false false (fun _ => true)
    (fun _ => true) [[0, 0, 0, 0, 0, 0]] rfl rfl (by decide)

/-- Counterexample for C4 as stated.  In the RFCOMM instantiation a send
failure does affect the inbound session: with upstream connected, two
frames available from the peer and every send failing, the relay loop
reads only the first frame (framesRead = 1, not 2), forwards nothing, and
ends the session with the upstream marked disconnected — the loop breaks
and the client is closed, so the next inbound frame of this session never
triggers a reconnect. -/
theorem bt_send_failure_ends_session_cex :
    bt_relay [[0, 0, 0, 0, 0, 0], [1, 1, 1, 1, 1, 1]] true (fun _ => true) (fun _ => false) 0 =
      ⟨[], 1, false⟩ ∧
      ([[0, 0, 0, 0, 0, 0], [1, 1, 1, 1, 1, 1]] : List (List Nat)).length = 2 :=
  ⟨rfl, rfl⟩

/-- C4 amended.  On a failed outbound send both bridges mark the outbound
link disconnected and drop only that frame, with no buffering or retry.
In the UDP instantiation the inbound session is unaffected and the next
6-byte datagram triggers the reconnect attempt.  In the RFCOMM
instantiation the send failure additionally terminates the inbound client
session (the relay loop breaks after reading that one frame); reconnection
happens on the next accepted connection. -/
theorem send_failure_amended (d : List Nat) (hd : d.length = 6) (rOk2 s2 : Bool)
    (f : List Nat) (rest : List (List Nat)) (rOk sOk : Nat → Bool) (t : Nat)
    (hs : sOk t = false) :
    udp_step true d rOk2 false = ⟨false, none, false, none⟩ ∧
      (udp_step false d rOk2 s2).reconnectAttempted = true ∧
      bt_relay (f :: rest) true rOk sOk t = ⟨[], 1, false⟩ := by
  refine ⟨?_, ?_, ?_⟩
  · simp [udp_step, hd]
  · cases rOk2 <;> cases s2 <;> simp [udp_step, hd]
  · simp [bt_relay, hs]

/-- Witness for the amended C4 at concrete frames and oracles. -/
theorem send_failure_amended_witness :
    udp_step true [9, 9, 9, 9, 9, 9] true false = ⟨false, none, false, none⟩ ∧
      (udp_step false [9, 9, 9, 9, 9, 9] true true).reconnectAttempted = true ∧
      bt_relay [[3, 3, 3, 3, 3, 3]] true (fun _ => true) (fun _ => false) 0 =
        ⟨[], 1, false⟩ :=
  send_failure_amended [9, 9, 9, 9, 9, 9] (by decide) true true [3, 3, 3, 3, 3, 3] []
    (fun _ => true) (fun _ => false) 0 rfl

/-- The spectrum display live relay loop always ends with main returning
exit status 0, whatever the inbound frames and send outcomes. -/
theorem spectrum_live_loop_exit_zero (frames : List (List Nat)) (sOk : Nat → Bool) (t : Nat) :
    spectrum_live_loop frames sOk t = some 0 := by
  induction frames generalizing t with
  | nil => rfl
  | cons f rest ih =>
    simp only [spectrum_live_loop]
    split
    · exact ih (t + 1)
    · rfl

/-- The display driver grid relay loop always ends with main returning
exit status 0. -/
theorem display_main_loop_exit_zero (grids : List (List Nat)) :
    display_main_loop grids = some 0 := by
  induction grids with
  | nil => rfl
  | cons g rest ih => exact ih

/-- Counterexample for C3 as stated.  A transient transport error during
a main relay loop does cause a process exit: the spectrum display live
relay, on an outbound send failure at the first frame (one frame still
pending), leaves its relay loop and main returns (some _, unlike the UDP
loop body whose exitCode is none) — and with exit status 0, not even
nonzero. -/
theorem relay_loop_exit_cex :
    spectrum_live_loop [[1, 2, 3, 4, 5, 6], [2, 2, 2, 2, 2, 2]] (fun _ => false) 0 = some 0 ∧
      (some 0 : Option Nat) ≠ none := ⟨rfl, by decide⟩

/-- C3 amended.  Startup acquisition failures that the code checks exit
with status 1: the UDP bridge on socket or bind failure, the display
driver when the device interface cannot be opened, and the spectrum
display when creating the outbound socket fails.  The UDP relay loop body
never returns from main, and every iteration of the RFCOMM bridge main
loop (including listening-socket acquisition failures, which are retried)
returns to Listening rather than exiting.  The grid-relay loops, however,
exit with status 0 when their stream session ends or a send fails. -/
theorem exit_behavior_amended (sockOk bindOk beginOk fdOk : Bool)
    (hfail : sockOk = false ∨ bindOk = false) (hb : beginOk = false) (hf : fdOk = false)
    (up rOk2 sOk2 : Bool) (d : List Nat)
    (sockOk2 haveAllow : Bool) (allowAddr remote : Fin 6 → Nat) (preOk : Bool)
    (rOk sOk : Nat → Bool) (frames grids : List (List Nat)) (t : Nat) :
    udp_main_startup sockOk bindOk = some 1 ∧
      display_main_startup beginOk = some 1 ∧
      spectrum_main_startup fdOk = some 1 ∧
      (udp_step up d rOk2 sOk2).exitCode = none ∧
      (bt_main_iter sockOk2 haveAllow allowAddr remote up preOk rOk sOk
        frames).returnsToListening = true ∧
      spectrum_live_loop frames sOk t = some 0 ∧
      display_main_loop grids = some 0 := by
  refine ⟨?_, ?_, ?_, ?_, ?_, spectrum_live_loop_exit_zero frames sOk t,
    display_main_loop_exit_zero grids⟩
  · rcases hfail with h | h
    · simp [udp_main_startup, h]
    · cases sockOk <;> simp [udp_main_startup, h]
  · simp [display_main_startup, hb]
  · simp [spectrum_main_startup, hf]
  · simp only [udp_step]
    split
    · rfl
    · cases up <;> cases rOk2 <;> cases sOk2 <;> simp
  · rcases hacc : rfcomm_accept_one sockOk2 haveAllow allowAddr remote <;>
      simp only [bt_main_iter, hacc]
    by_cases h2 : (!up && !preOk) = true <;> simp [h2]

/-- Witness for the amended C3 at concrete failure flags, oracles and
traces. -/
theorem exit_behavior_amended_witness :
    udp_main_startup false true = some 1 ∧
      display_main_startup false = some 1 ∧
      spectrum_main_startup false = some 1 ∧
      (udp_step true [1, 2, 3, 4, 5, 6] true true).exitCode = none ∧
      (bt_main_iter true true (fun _ => 1) (fun _ => 2) true true (fun _ => true)
        (fun _ => true) [[1, 2, 3, 4, 5, 6]]).returnsToListening = true ∧
      spectrum_live_loop [[1, 2, 3, 4, 5, 6]] (fun _ => true) 0 = some 0 ∧
      display_main_loop [[0]] = some 0 :=
  exit_behavior_amended false true false false (Or.inl rfl) rfl rfl true true true
    [1, 2, 3, 4, 5, 6] true true (fun _ => 1) (fun _ => 2) true (fun _ => true)
    (fun _ => true) [[1, 2, 3, 4, 5, 6]] [[0]] 0

end Bee
